import Mathlib

/-!
Cyph backend configuration (`backend/config.go`).

A shallow embedding of the static configuration value `config` declared in
`backend/config.go`, together with the resolution layer that the
specification places on top of it (plan entitlements, storefront purchases,
continent-to-region routing, gift-pack expansion).

Conventions of the embedding:

* a Go `map[string]V` literal is an association list `List (String × V)` in the
  order of the literal; a comma-ok read `v, ok := m[k]` is `List.lookup`;
* the Go type `none` (`struct{}`) is `Unit`, and `empty` is `()`;
* `int64` values are `Int`; a product is wrapped by `wrapInt64`;
* struct fields that a Go composite literal leaves out take their zero value.
-/

namespace Cyph

/-! ## Types -/

/-- Go `type Plan struct` (Braintree plan). Omitted fields of a composite
literal are the Go zero values, given here as field defaults. -/
structure Plan where
  AccountsPlan : String := ""
  GiftPack : Bool := false
  Price : Int := 0
  ProFeatures : List (String × Bool) := []
  SessionCountLimit : Int := 0
  deriving DecidableEq, Repr

/-- Go `type IPFSGatewayUptimeCheckData struct`: a cached probe outcome. -/
structure IPFSGatewayUptimeCheckData where
  Result : Bool
  Timestamp : Int
  deriving DecidableEq, Repr

/-- Two's-complement wrap of an integer into the `int64` range. -/
def wrapInt64 (x : Int) : Int :=
  (x + 2 ^ 63) % 2 ^ 64 - 2 ^ 63

/-- Go `time.Millisecond`: a `time.Duration` (an `int64` count of
nanoseconds) of one millisecond. -/
def timeMillisecond : Int := 1000000

/-- The value `empty = struct{}{}` of the source. -/
def empty : Unit := ()

namespace config

/-! ## The configuration tables -/

/-- Field `config.ContinentFirebaseRegions`; the entry for `"an"` is commented
out in the source. -/
def ContinentFirebaseRegions : List (String × String) := [
  ("af", "europe-west1"),
  ("as", "asia-northeast1"),
  ("eu", "europe-west1"),
  ("na", "us-central1"),
  ("oc", "australia-southeast1"),
  ("sa", "southamerica-east1")
]

/-- Field `config.Continents`; the entry for `"an"` is commented out in the
source. -/
def Continents : List (String × Unit) := [
  ("af", empty),
  ("as", empty),
  ("eu", empty),
  ("na", empty),
  ("oc", empty),
  ("sa", empty)
]

/-- Field `config.DefaultContinent`. -/
def DefaultContinent : String := "Europe"

/-- Field `config.DefaultContinentCode`. -/
def DefaultContinentCode : String := "eu"

/-- Field `config.DefaultContinentCodeBackup`. -/
def DefaultContinentCodeBackup : String := "na"

/-- Field `config.DefaultFirebaseRegion`. -/
def DefaultFirebaseRegion : String := "us-central1"

/-- Field `config.FirebaseRegions`. -/
def FirebaseRegions : List String := [
  "asia-northeast1",
  "australia-southeast1",
  "europe-west1",
  "southamerica-east1",
  "us-central1"
]

/-- Field `config.IPFSGatewayUptimeCheckTimeout`,
`time.Millisecond * time.Duration(1500)`, in nanoseconds. -/
def IPFSGatewayUptimeCheckTimeout : Int :=
  wrapInt64 (timeMillisecond * 1500)

/-- Field `config.IPFSGatewayUptimeCheckTTL`, `int64(600)`. -/
def IPFSGatewayUptimeCheckTTL : Int := 600

/-- Field `config.PlanAppleIDs`. -/
def PlanAppleIDs : List (String × String) := [
  ("MonthlyPlatinum", "8-4")
]

/-- Field `config.Plans`: the plan catalog, in the order of the source. -/
def Plans : List (String × Plan) := [
  ("0-0", {
    ProFeatures := [("disableP2P", true), ("modestBranding", true), ("nativeCrypto", true), ("telehealth", true), ("video", true), ("voice", true)],
    SessionCountLimit := -1
  }),
  ("3-3", {
    AccountsPlan := "MonthlyTelehealth",
    ProFeatures := [("disableP2P", false), ("modestBranding", false), ("nativeCrypto", false), ("telehealth", true), ("video", true), ("voice", true)],
    SessionCountLimit := -1
  }),
  ("3-4", {
    AccountsPlan := "AnnualTelehealth",
    ProFeatures := [("disableP2P", false), ("modestBranding", false), ("nativeCrypto", false), ("telehealth", true), ("video", true), ("voice", true)],
    SessionCountLimit := -1
  }),
  ("3-5", {
    AccountsPlan := "MonthlyTelehealth",
    ProFeatures := [("disableP2P", false), ("modestBranding", false), ("nativeCrypto", false), ("telehealth", true), ("video", true), ("voice", true)],
    SessionCountLimit := -1
  }),
  ("3-6", {
    AccountsPlan := "AnnualTelehealth",
    ProFeatures := [("disableP2P", false), ("modestBranding", false), ("nativeCrypto", false), ("telehealth", true), ("video", true), ("voice", true)],
    SessionCountLimit := -1
  }),
  ("3-7", {
    AccountsPlan := "MonthlyTelehealth",
    ProFeatures := [("disableP2P", false), ("modestBranding", false), ("nativeCrypto", false), ("telehealth", true), ("video", true), ("voice", true)],
    SessionCountLimit := -1
  }),
  ("3-8", {
    AccountsPlan := "AnnualTelehealth",
    ProFeatures := [("disableP2P", false), ("modestBranding", false), ("nativeCrypto", false), ("telehealth", true), ("video", true), ("voice", true)],
    SessionCountLimit := -1
  }),
  ("3-9", {
    AccountsPlan := "MonthlyTelehealth",
    ProFeatures := [("disableP2P", false), ("modestBranding", false), ("nativeCrypto", false), ("telehealth", true), ("video", true), ("voice", true)],
    SessionCountLimit := -1
  }),
  ("3-10", {
    AccountsPlan := "AnnualTelehealth",
    ProFeatures := [("disableP2P", false), ("modestBranding", false), ("nativeCrypto", false), ("telehealth", true), ("video", true), ("voice", true)],
    SessionCountLimit := -1
  }),
  ("4-1", {
    ProFeatures := [("disableP2P", false), ("modestBranding", false), ("nativeCrypto", false), ("telehealth", false), ("video", true), ("voice", true)],
    SessionCountLimit := -1
  }),
  ("4-2", {
    ProFeatures := [("disableP2P", false), ("modestBranding", false), ("nativeCrypto", false), ("telehealth", false), ("video", true), ("voice", true)],
    SessionCountLimit := -1
  }),
  ("4-3", {
    ProFeatures := [("disableP2P", false), ("modestBranding", false), ("nativeCrypto", false), ("telehealth", false), ("video", true), ("voice", true)],
    SessionCountLimit := -1
  }),
  ("4-4", {
    ProFeatures := [("disableP2P", false), ("modestBranding", false), ("nativeCrypto", false), ("telehealth", false), ("video", true), ("voice", true)],
    SessionCountLimit := -1
  }),
  ("5-1", {
    ProFeatures := [("disableP2P", false), ("modestBranding", true), ("nativeCrypto", false), ("telehealth", false), ("video", true), ("voice", true)],
    SessionCountLimit := -1
  }),
  ("5-2", {
    ProFeatures := [("disableP2P", false), ("modestBranding", true), ("nativeCrypto", false), ("telehealth", false), ("video", true), ("voice", true)],
    SessionCountLimit := -1
  }),
  ("8-0", {
    AccountsPlan := "MonthlyPremium",
    ProFeatures := [("disableP2P", false), ("modestBranding", false), ("nativeCrypto", false), ("telehealth", false), ("video", true), ("voice", true)],
    SessionCountLimit := -1
  }),
  ("8-1", {
    AccountsPlan := "AnnualPremium",
    ProFeatures := [("disableP2P", false), ("modestBranding", false), ("nativeCrypto", false), ("telehealth", false), ("video", true), ("voice", true)],
    SessionCountLimit := -1
  }),
  ("8-2", {
    AccountsPlan := "MonthlyTelehealth",
    ProFeatures := [("disableP2P", false), ("modestBranding", false), ("nativeCrypto", false), ("telehealth", true), ("video", true), ("voice", true)],
    SessionCountLimit := -1
  }),
  ("8-3", {
    AccountsPlan := "AnnualTelehealth",
    ProFeatures := [("disableP2P", false), ("modestBranding", false), ("nativeCrypto", false), ("telehealth", true), ("video", true), ("voice", true)],
    SessionCountLimit := -1
  }),
  ("8-4", {
    AccountsPlan := "MonthlyPlatinum",
    ProFeatures := [("disableP2P", false), ("modestBranding", false), ("nativeCrypto", false), ("telehealth", false), ("video", true), ("voice", true)],
    SessionCountLimit := -1
  }),
  ("8-5", {
    AccountsPlan := "AnnualPlatinum",
    ProFeatures := [("disableP2P", false), ("modestBranding", false), ("nativeCrypto", false), ("telehealth", false), ("video", true), ("voice", true)],
    SessionCountLimit := -1
  }),
  ("8-6", {
    AccountsPlan := "MonthlySupporter",
    ProFeatures := [("disableP2P", false), ("modestBranding", false), ("nativeCrypto", false), ("telehealth", false), ("video", true), ("voice", true)],
    SessionCountLimit := -1
  }),
  ("8-7", {
    AccountsPlan := "AnnualSupporter",
    ProFeatures := [("disableP2P", false), ("modestBranding", false), ("nativeCrypto", false), ("telehealth", false), ("video", true), ("voice", true)],
    SessionCountLimit := -1
  }),
  ("8-8", {
    AccountsPlan := "MonthlyBusiness",
    ProFeatures := [("disableP2P", false), ("modestBranding", false), ("nativeCrypto", false), ("telehealth", false), ("video", true), ("voice", true)],
    SessionCountLimit := -1
  }),
  ("8-9", {
    AccountsPlan := "AnnualBusiness",
    ProFeatures := [("disableP2P", false), ("modestBranding", false), ("nativeCrypto", false), ("telehealth", false), ("video", true), ("voice", true)],
    SessionCountLimit := -1
  }),
  ("10-1", {
    AccountsPlan := "LifetimePlatinum",
    Price := 10000,
    ProFeatures := [("disableP2P", false), ("modestBranding", false), ("nativeCrypto", false), ("telehealth", false), ("video", true), ("voice", true)],
    SessionCountLimit := -1
  }),
  ("11-1", {
    AccountsPlan := "MonthlyBusiness",
    ProFeatures := [("disableP2P", false), ("modestBranding", false), ("nativeCrypto", false), ("telehealth", false), ("video", true), ("voice", true)],
    SessionCountLimit := -1
  }),
  ("11-2", {
    AccountsPlan := "AnnualBusiness",
    ProFeatures := [("disableP2P", false), ("modestBranding", false), ("nativeCrypto", false), ("telehealth", false), ("video", true), ("voice", true)],
    SessionCountLimit := -1
  }),
  ("11-3", {
    AccountsPlan := "MonthlyBusiness",
    ProFeatures := [("disableP2P", false), ("modestBranding", false), ("nativeCrypto", false), ("telehealth", false), ("video", true), ("voice", true)],
    SessionCountLimit := -1
  }),
  ("11-4", {
    AccountsPlan := "AnnualBusiness",
    ProFeatures := [("disableP2P", false), ("modestBranding", false), ("nativeCrypto", false), ("telehealth", false), ("video", true), ("voice", true)],
    SessionCountLimit := -1
  }),
  ("11-5", {
    AccountsPlan := "MonthlyBusiness",
    ProFeatures := [("disableP2P", false), ("modestBranding", false), ("nativeCrypto", false), ("telehealth", false), ("video", true), ("voice", true)],
    SessionCountLimit := -1
  }),
  ("11-6", {
    AccountsPlan := "AnnualBusiness",
    ProFeatures := [("disableP2P", false), ("modestBranding", false), ("nativeCrypto", false), ("telehealth", false), ("video", true), ("voice", true)],
    SessionCountLimit := -1
  }),
  ("11-7", {
    AccountsPlan := "MonthlyBusiness",
    ProFeatures := [("disableP2P", false), ("modestBranding", false), ("nativeCrypto", false), ("telehealth", false), ("video", true), ("voice", true)],
    SessionCountLimit := -1
  }),
  ("11-8", {
    AccountsPlan := "AnnualBusiness",
    ProFeatures := [("disableP2P", false), ("modestBranding", false), ("nativeCrypto", false), ("telehealth", false), ("video", true), ("voice", true)],
    SessionCountLimit := -1
  }),
  ("12-0", {
    AccountsPlan := "AnnualSupporter",
    ProFeatures := [("disableP2P", false), ("modestBranding", false), ("nativeCrypto", false), ("telehealth", false), ("video", true), ("voice", true)],
    SessionCountLimit := -1
  }),
  ("12-1", {
    AccountsPlan := "MonthlyPlatinum",
    ProFeatures := [("disableP2P", false), ("modestBranding", false), ("nativeCrypto", false), ("telehealth", false), ("video", true), ("voice", true)],
    SessionCountLimit := -1
  }),
  ("13-1", {
    AccountsPlan := "[\x7b\"plan\": \"AnnualSupporter\", \"quantity\": 10, \"trialMonths\": 18\x7d]",
    GiftPack := true,
    Price := 1500,
    ProFeatures := [("disableP2P", false), ("modestBranding", false), ("nativeCrypto", false), ("telehealth", false), ("video", true), ("voice", true)],
    SessionCountLimit := -1
  }),
  ("13-2", {
    AccountsPlan := "[\x7b\"plan\": \"AnnualPremium\", \"quantity\": 5, \"trialMonths\": 30\x7d]",
    GiftPack := true,
    Price := 4500,
    ProFeatures := [("disableP2P", false), ("modestBranding", false), ("nativeCrypto", false), ("telehealth", false), ("video", true), ("voice", true)],
    SessionCountLimit := -1
  }),
  ("13-3", {
    AccountsPlan := "[\x7b\"plan\": \"AnnualPlatinum\", \"quantity\": 2, \"trialMonths\": 42\x7d]",
    GiftPack := true,
    Price := 15000,
    ProFeatures := [("disableP2P", false), ("modestBranding", false), ("nativeCrypto", false), ("telehealth", false), ("video", true), ("voice", true)],
    SessionCountLimit := -1
  }),
  ("13-4", {
    AccountsPlan := "[\x7b\"plan\": \"AnnualSupporter\", \"quantity\": 10, \"trialMonths\": 18\x7d, \x7b\"plan\": \"AnnualPremium\", \"quantity\": 5, \"trialMonths\": 30\x7d, \x7b\"plan\": \"AnnualPlatinum\", \"quantity\": 2, \"trialMonths\": 42\x7d]",
    GiftPack := true,
    Price := 17500,
    ProFeatures := [("disableP2P", false), ("modestBranding", false), ("nativeCrypto", false), ("telehealth", false), ("video", true), ("voice", true)],
    SessionCountLimit := -1
  })
]

end config

/-! ## Catalog views -/

/-- The keys of a Go map literal, in the order of the literal. -/
def mapKeys {V : Type} (m : List (String × V)) : List String :=
  m.map Prod.fst

/-- The values of a Go map literal, in the order of the literal. -/
def mapValues {V : Type} (m : List (String × V)) : List V :=
  m.map Prod.snd

/-- Every flag name used by any plan of a catalog (with repetitions). -/
def catalogFlags (plans : List (String × Plan)) : List String :=
  plans.flatMap fun e => mapKeys e.2.ProFeatures

/-- Whether a character list is a non-empty run of decimal digits. -/
def isDigitRun (cs : List Char) : Bool :=
  !cs.isEmpty && cs.all Char.isDigit

/-- The plan-code format `<majorGroup>-<variant>`: the longest leading run of
digits, then a hyphen, then only digits, both runs non-empty. -/
def isPlanCodeFormat (s : String) : Bool :=
  match s.toList.dropWhile Char.isDigit with
  | '-' :: variant => isDigitRun (s.toList.takeWhile Char.isDigit) && isDigitRun variant
  | _ => false

/-! ## Resolution layer (specification §4)

The source file declares only the tables. The operations below are the
consumers the specification describes; each reads the tables above. -/

/-- Modelled from the spec: the `EntitlementSet` returned by
`resolveEntitlements` (§4.1), which the source does not declare: the feature
flags, the session limit, whether the plan takes part in recurring billing and
whether it is a gift pack. -/
structure EntitlementSet where
  flags : List (String × Bool)
  sessionLimit : Int
  recurringBilling : Bool
  giftPack : Bool
  deriving DecidableEq, Repr

/-- Modelled from the spec: the entitlement view of one plan definition
(§4.1), absent from the source; recurring billing is "the billing-plan name is
non-empty". -/
def entitlementsOf (p : Plan) : EntitlementSet :=
  { flags := p.ProFeatures
    sessionLimit := p.SessionCountLimit
    recurringBilling := p.AccountsPlan != ""
    giftPack := p.GiftPack }

/-- Modelled from the spec: `resolveEntitlements(planCode) -> EntitlementSet |
NotFound` (§4.1), absent from the source: an exact-match read of
`config.Plans`; `none` is NotFound. -/
def resolveEntitlements (planCode : String) : Option EntitlementSet :=
  match config.Plans.lookup planCode with
  | some p => some (entitlementsOf p)
  | none => none

/-- Modelled from the spec: `resolveStorefrontPurchase(storefrontProductID) ->
planCode | NotFound` (§4.1), absent from the source: a read of
`config.PlanAppleIDs`, then of the catalog; NotFound (`none`) when either stage
misses. -/
def resolveStorefrontPurchase (storefrontProductID : String) : Option String :=
  match config.PlanAppleIDs.lookup storefrontProductID with
  | none => none
  | some planCode =>
    match resolveEntitlements planCode with
    | none => none
    | some _ => some planCode

/-- Modelled from the spec: `resolveRegion(continentCode) -> regionID` (§4.2),
absent from the source: the entry of `config.ContinentFirebaseRegions` when
there is one, `config.DefaultFirebaseRegion` otherwise. -/
def resolveRegion (continentCode : String) : String :=
  match config.ContinentFirebaseRegions.lookup continentCode with
  | some region => region
  | none => config.DefaultFirebaseRegion

/-- Modelled from the spec: `isRecognizedContinent(code) -> bool` (§4.2),
absent from the source: exact membership in `config.Continents`. -/
def isRecognizedContinent (code : String) : Bool :=
  (config.Continents.lookup code).isSome

/-! ## Gift packs (specification §4.1)

A gift-pack plan stores, in `AccountsPlan`, a JSON list of records with the
members `plan`, `quantity` and `trialMonths`. The reader below covers the part
of JSON those values are written in: a list of flat records whose member
values are strings without escapes or integers. Anything else is malformed. -/

/-- Modelled from the spec: one `(plan, quantity, trialMonths)` triple of a
gift-pack billing value (§4.1); the source declares no type for it. -/
structure GiftPackItem where
  plan : String
  quantity : Int
  trialMonths : Int
  deriving DecidableEq, Repr

/-- Tokens of the JSON subset gift-pack values are written in. -/
inductive JsonToken where
  | listOpen
  | listClose
  | recordOpen
  | recordClose
  | colon
  | comma
  | text (s : String)
  | number (n : Int)
  deriving DecidableEq, Repr

/-- A member value of a record: a string or an integer. -/
inductive JsonScalar where
  | text (s : String)
  | number (n : Int)
  deriving DecidableEq, Repr

/-- JSON insignificant whitespace. -/
def isJsonSpace (c : Char) : Bool :=
  [' ', '\t', '\n', '\r'].contains c

/-- The one-character tokens. -/
def punctuation (c : Char) : Option JsonToken :=
  if c = '[' then some .listOpen
  else if c = ']' then some .listClose
  else if c = '\x7b' then some .recordOpen
  else if c = '\x7d' then some .recordClose
  else if c = ':' then some .colon
  else if c = ',' then some .comma
  else none

/-- What the tokenizer is in the middle of; accumulated characters are kept
last-read first. -/
inductive LexMode where
  | idle
  | inText (acc : List Char)
  | afterMinus
  | inNumber (negative : Bool) (acc : List Char)

/-- The value of a run of decimal digits, most significant first. -/
def digitsValue (digits : List Char) : Nat :=
  digits.foldl (fun n c => 10 * n + (c.toNat - 48)) 0

/-- The token of a finished integer literal; a leading zero before another
digit is malformed. -/
def numberToken (negative : Bool) (acc : List Char) : Option JsonToken :=
  match acc.reverse with
  | [] => none
  | '0' :: _ :: _ => none
  | digits =>
    some (.number (if negative then -(digitsValue digits : Int) else (digitsValue digits : Int)))

/-- The tokenizer: one pass over the characters; `none` on a character
sequence outside the subset (an escape, a fraction, an unterminated string, a
stray character). -/
def lexFrom : LexMode → List Char → Option (List JsonToken)
  | .idle, [] => some []
  | .inText _, [] => none
  | .afterMinus, [] => none
  | .inNumber negative acc, [] => (numberToken negative acc).map fun t => [t]
  | .idle, c :: cs =>
    if isJsonSpace c then lexFrom .idle cs
    else if c = '\x22' then lexFrom (.inText []) cs
    else if c = '-' then lexFrom .afterMinus cs
    else if c.isDigit then lexFrom (.inNumber false [c]) cs
    else
      match punctuation c with
      | some p => (lexFrom .idle cs).map fun ts => p :: ts
      | none => none
  | .inText acc, c :: cs =>
    if c = '\x22' then (lexFrom .idle cs).map fun ts => .text (String.mk acc.reverse) :: ts
    else if c = '\x5c' then none
    else lexFrom (.inText (c :: acc)) cs
  | .afterMinus, c :: cs =>
    if c.isDigit then lexFrom (.inNumber true [c]) cs else none
  | .inNumber negative acc, c :: cs =>
    if c.isDigit then lexFrom (.inNumber negative (c :: acc)) cs
    else
      match numberToken negative acc with
      | none => none
      | some t =>
        if isJsonSpace c then (lexFrom .idle cs).map fun ts => t :: ts
        else
          match punctuation c with
          | some p => (lexFrom .idle cs).map fun ts => t :: p :: ts
          | none => none

/-- Where the record-list reader stands. -/
inductive ParseState where
  | start
  | listOpened
  | recordOpened
  | haveKey (key : String)
  | wantValue (key : String)
  | haveValue
  | wantKey
  | recordClosed
  | wantRecord
  | finished

/-- The record-list reader: one pass over the tokens of `[ record, ... ]`,
each record `\x7b "key": value, ... \x7d`; `fields` are the members of the open
record and `records` the closed records, both last-read first. -/
def parseFrom : ParseState → List (String × JsonScalar) →
    List (List (String × JsonScalar)) → List JsonToken →
    Option (List (List (String × JsonScalar)))
  | .finished, _, records, [] => some records.reverse
  | _, _, _, [] => none
  | .start, _, _, .listOpen :: ts => parseFrom .listOpened [] [] ts
  | .listOpened, _, records, .listClose :: ts => parseFrom .finished [] records ts
  | .listOpened, _, records, .recordOpen :: ts => parseFrom .recordOpened [] records ts
  | .recordOpened, fields, records, .recordClose :: ts =>
    parseFrom .recordClosed [] (fields.reverse :: records) ts
  | .recordOpened, fields, records, .text key :: ts =>
    parseFrom (.haveKey key) fields records ts
  | .haveKey key, fields, records, .colon :: ts =>
    parseFrom (.wantValue key) fields records ts
  | .wantValue key, fields, records, .text s :: ts =>
    parseFrom .haveValue ((key, .text s) :: fields) records ts
  | .wantValue key, fields, records, .number n :: ts =>
    parseFrom .haveValue ((key, .number n) :: fields) records ts
  | .haveValue, fields, records, .comma :: ts => parseFrom .wantKey fields records ts
  | .haveValue, fields, records, .recordClose :: ts =>
    parseFrom .recordClosed [] (fields.reverse :: records) ts
  | .wantKey, fields, records, .text key :: ts =>
    parseFrom (.haveKey key) fields records ts
  | .recordClosed, _, records, .comma :: ts => parseFrom .wantRecord [] records ts
  | .recordClosed, _, records, .listClose :: ts => parseFrom .finished [] records ts
  | .wantRecord, _, records, .recordOpen :: ts => parseFrom .recordOpened [] records ts
  | _, _, _, _ :: _ => none

/-- Modelled from the spec: the triple a record encodes (§4.1): its `plan`
member must be a string and its `quantity` and `trialMonths` members integers;
a record without them is malformed. -/
def giftPackItemOf (fields : List (String × JsonScalar)) : Option GiftPackItem :=
  match fields.lookup "plan", fields.lookup "quantity", fields.lookup "trialMonths" with
  | some (.text plan), some (.number quantity), some (.number trialMonths) =>
    some { plan := plan, quantity := quantity, trialMonths := trialMonths }
  | _, _, _ => none

/-- The triples of every record, or `none` when one record is malformed. -/
def giftPackItemsOf : List (List (String × JsonScalar)) → Option (List GiftPackItem)
  | [] => some []
  | fields :: rest =>
    match giftPackItemOf fields, giftPackItemsOf rest with
    | some item, some items => some (item :: items)
    | _, _ => none

/-- Modelled from the spec: the parse of a gift-pack billing value (§4.1), a
JSON-encoded list of `(plan, quantity, trialMonths)` triples; `none` when the
value is malformed. The source holds the values but no reader for them. -/
def parseGiftPack (value : String) : Option (List GiftPackItem) :=
  match lexFrom .idle value.toList with
  | none => none
  | some tokens =>
    match parseFrom .start [] [] tokens with
    | none => none
    | some records => giftPackItemsOf records

/-- Modelled from the spec: `expandGiftPack(planCode)` (§4.1), absent from the
source: the triples of a gift-pack plan in the order they are encoded; Empty
(`[]`) for a plan that is not a gift pack, for an unknown code, and for a
malformed value. -/
def expandGiftPack (planCode : String) : List GiftPackItem :=
  match config.Plans.lookup planCode with
  | none => []
  | some p =>
    if p.GiftPack then
      match parseGiftPack p.AccountsPlan with
      | some items => items
      | none => []
    else []

/-- The `plan` members of every gift-pack triple of a catalog: for each plan
with `GiftPack = true`, the plan names its `AccountsPlan` value encodes. -/
def bundledPlanNames (plans : List (String × Plan)) : List String :=
  plans.flatMap fun e =>
    if e.2.GiftPack then
      match parseGiftPack e.2.AccountsPlan with
      | some items => items.map GiftPackItem.plan
      | none => []
    else []

/-! ## Regular expressions (Go `regexp`)

`config.AllowedCyphIDs` is a compiled Go regular expression. The syntax tree
below covers the constructs its pattern is written with, and the matcher gives
them the meaning the Go `regexp` package documents: matching runs over the
characters of the text, `$` without the multi-line flag holds at the end of the
text only, and a search may start at any position. -/

/-- The syntax tree of a regular expression: a character class given by
inclusive ranges, one-or-more repetition `+`, the end-of-text assertion `$`,
and concatenation. -/
inductive Regex where
  | charClass (ranges : List (Char × Char))
  | oneOrMore (r : Regex)
  | endOfText
  | concat (a b : Regex)

/-- Whether a character lies in one of the inclusive ranges of a class. -/
def inRanges (ranges : List (Char × Char)) (c : Char) : Bool :=
  ranges.any fun r => r.1.toNat ≤ c.toNat && c.toNat ≤ r.2.toNat

/-- The texts left after applying `step` once, twice, ... up to `n` times in a
row, starting from any of `starts`. -/
def repeatStep (step : List Char → List (List Char)) :
    Nat → List (List Char) → List (List Char)
  | 0, _ => []
  | n + 1, starts => starts.flatMap step ++ repeatStep step n (starts.flatMap step)

/-- Every way the expression matches at the head of `text` (the unread part of
the input), each given by the text left after the match. A repetition is
unrolled `text.length + 1` times, which covers every repetition that consumes
input. -/
def Regex.remainders : Regex → List Char → List (List Char)
  | .charClass ranges, text =>
    match text with
    | c :: rest => if inRanges ranges c then [rest] else []
    | [] => []
  | .oneOrMore r, text => repeatStep (Regex.remainders r) (text.length + 1) [text]
  | .endOfText, text => if text.isEmpty then [text] else []
  | .concat a b, text => (Regex.remainders a text).flatMap (Regex.remainders b)

/-- Go `(*Regexp).MatchString`: whether the string contains any match of the
expression, that is, the expression matches starting at some position. -/
def Regex.matchString (r : Regex) (s : String) : Bool :=
  s.toList.tails.any fun text => !(r.remainders text).isEmpty

namespace config

/-- Field `config.AllowedCyphIDs`, `regexp.MustCompile("[A-Za-z0-9_-]+$")`: the
class with the ranges A-Z, a-z, 0-9 and the literals `_` and `-` (a hyphen at
the end of a class is literal), repeated one or more times, then `$`. -/
def AllowedCyphIDs : Regex :=
  .concat (.oneOrMore (.charClass [('A', 'Z'), ('a', 'z'), ('0', '9'), ('_', '_'), ('-', '-')]))
    .endOfText

end config

/-! ## Map lemmas -/

/-- A comma-ok read misses exactly on the strings that are not keys. -/
theorem lookup_none_of_not_key {V : Type} (m : List (String × V)) (k : String)
    (h : k ∉ mapKeys m) : m.lookup k = none := by
  rw [List.lookup_eq_none_iff]
  intro p hp
  have hne : k ≠ p.1 := fun heq => h (heq ▸ List.mem_map_of_mem Prod.fst hp)
  simpa using hne

/-- A comma-ok read that hits returns an entry of the literal. -/
theorem mem_of_lookup_some {V : Type} (m : List (String × V)) (k : String) (v : V)
    (h : m.lookup k = some v) : (k, v) ∈ m := by
  obtain ⟨l₁, l₂, rfl, _⟩ := List.lookup_eq_some_iff.mp h
  simp

/-- A comma-ok read hits on every key. -/
theorem lookup_some_of_key {V : Type} (m : List (String × V)) (k : String)
    (h : k ∈ mapKeys m) : ∃ v, m.lookup k = some v := by
  cases hl : m.lookup k with
  | some v => exact ⟨v, rfl⟩
  | none =>
    exfalso
    obtain ⟨p, hp, rfl⟩ := List.mem_map.mp h
    have := List.lookup_eq_none_iff.mp hl p hp
    simp at this

/-! ## Plan-code format -/

/-- The format check accepts only strings of the shape digits, hyphen,
digits. -/
theorem isPlanCodeFormat_sound (s : String) (h : isPlanCodeFormat s = true) :
    ∃ major variant : List Char, s.toList = major ++ '-' :: variant ∧
      major ≠ [] ∧ variant ≠ [] ∧
      (∀ c ∈ major, c.isDigit = true) ∧ (∀ c ∈ variant, c.isDigit = true) := by
  unfold isPlanCodeFormat at h
  have hsplit := List.takeWhile_append_dropWhile Char.isDigit s.toList
  generalize s.toList.dropWhile Char.isDigit = rest at h hsplit
  generalize s.toList.takeWhile Char.isDigit = major at h hsplit
  match rest, h, hsplit with
  | [], h, _ => simp at h
  | c :: variant, h, hsplit =>
    by_cases hc : c = '-'
    · subst hc
      simp only [isDigitRun, Bool.and_eq_true, Bool.not_eq_true', List.isEmpty_eq_false,
        List.all_eq_true] at h
      obtain ⟨⟨hm, hdm⟩, hv, hdv⟩ := h
      exact ⟨major, variant, hsplit.symm, hm, hv, hdm, hdv⟩
    · exfalso
      revert h
      split
      · rename_i heq
        simp only [List.cons.injEq] at heq
        exact absurd heq.1 hc
      · simp

/-! ## Theorems -/

/-- C1: every plan of `config.Plans` defines every flag name that any plan of
the catalog uses; the catalog has 40 plans and each plan's key set is exactly
disableP2P, modestBranding, nativeCrypto, telehealth, video, voice (each key
once). -/
theorem plans_define_full_flag_set :
    config.Plans.length = 40 ∧
    (∀ e ∈ config.Plans, ∀ flag ∈ catalogFlags config.Plans,
      flag ∈ mapKeys e.2.ProFeatures) ∧
    (∀ e ∈ config.Plans, (mapKeys e.2.ProFeatures).Nodup ∧ ∀ flag : String,
      flag ∈ mapKeys e.2.ProFeatures ↔
        flag ∈ ["disableP2P", "modestBranding", "nativeCrypto", "telehealth", "video", "voice"]) := by
  have hkeys : ∀ e ∈ config.Plans, mapKeys e.2.ProFeatures =
      ["disableP2P", "modestBranding", "nativeCrypto", "telehealth", "video", "voice"] := by
    decide
  refine ⟨rfl, ?_, ?_⟩
  · intro e he flag hflag
    obtain ⟨e', he', hmem⟩ := List.mem_flatMap.mp hflag
    rw [hkeys e he]
    rw [hkeys e' he'] at hmem
    exact hmem
  · intro e he
    rw [hkeys e he]
    exact ⟨by decide, fun _ => Iff.rfl⟩

/-- C2: resolving a plan code is exact-match and never defaults: a string that
is not a key of `config.Plans` (such as "8", "8-", "8-4 " and the empty
string) resolves to NotFound, not to the zero-value entitlement set, and every
key of the catalog resolves to its own plan definition (flags, session limit,
recurring billing = `AccountsPlan` non-empty). -/
theorem resolveEntitlements_exact_match :
    (∀ code : String, code ∉ mapKeys config.Plans →
      resolveEntitlements code = none ∧
      resolveEntitlements code ≠ some (entitlementsOf {})) ∧
    (mapKeys config.Plans).Nodup ∧
    (∀ e ∈ config.Plans, ∃ r, resolveEntitlements e.1 = some r ∧
      r.flags = e.2.ProFeatures ∧ r.sessionLimit = e.2.SessionCountLimit ∧
      r.giftPack = e.2.GiftPack ∧
      (r.recurringBilling = true ↔ e.2.AccountsPlan ≠ "")) ∧
    resolveEntitlements "8" = none ∧ resolveEntitlements "8-" = none ∧
    resolveEntitlements "8-4 " = none ∧ resolveEntitlements "" = none := by
  refine ⟨?_, by decide, ?_, by decide, by decide, by decide, by decide⟩
  · intro code hcode
    have hnone : resolveEntitlements code = none := by
      unfold resolveEntitlements
      rw [lookup_none_of_not_key _ _ hcode]
    exact ⟨hnone, by rw [hnone]; exact fun h => nomatch h⟩
  · have hall : ∀ e ∈ config.Plans, resolveEntitlements e.1 = some (entitlementsOf e.2) := by
      decide
    intro e he
    refine ⟨entitlementsOf e.2, hall e he, rfl, rfl, rfl, ?_⟩
    simp [entitlementsOf]

/-- C3: every value of `config.PlanAppleIDs` is a key of `config.Plans`, so
the second stage of storefront resolution never misses; the resolution returns
plan code "8-4" for "MonthlyPlatinum" and NotFound for every other id. -/
theorem resolveStorefrontPurchase_spec :
    (∀ code ∈ mapValues config.PlanAppleIDs, code ∈ mapKeys config.Plans) ∧
    (∀ id code : String, config.PlanAppleIDs.lookup id = some code →
      resolveEntitlements code ≠ none) ∧
    (∀ id : String, resolveStorefrontPurchase id =
      if id = "MonthlyPlatinum" then some "8-4" else none) := by
  refine ⟨by decide, ?_, ?_⟩
  · intro id code h
    have hmem := mem_of_lookup_some _ _ _ h
    have hcode : code = "8-4" := by
      simp [config.PlanAppleIDs] at hmem
      exact hmem.2
    subst hcode
    decide
  · intro id
    by_cases hid : id = "MonthlyPlatinum"
    · subst hid
      decide
    · have hnone : config.PlanAppleIDs.lookup id = none := by
        apply lookup_none_of_not_key
        simpa [mapKeys, config.PlanAppleIDs] using hid
      simp [resolveStorefrontPurchase, hnone, hid]

/-- C4: `resolveRegion` is total and falls back to the default: for every input
it returns either the region of the input's own table entry or the default
region, and for every string that is not a key of
`config.ContinentFirebaseRegions` (such as "an", "EU" and the empty string) it
returns "us-central1". -/
theorem resolveRegion_total_with_default :
    (∀ c : String, (c, resolveRegion c) ∈ config.ContinentFirebaseRegions ∨
      (c ∉ mapKeys config.ContinentFirebaseRegions ∧
        resolveRegion c = config.DefaultFirebaseRegion)) ∧
    (∀ c : String, c ∉ mapKeys config.ContinentFirebaseRegions →
      resolveRegion c = "us-central1") ∧
    resolveRegion "an" = "us-central1" ∧ resolveRegion "EU" = "us-central1" ∧
    resolveRegion "" = "us-central1" := by
  have hdefault : ∀ c : String, c ∉ mapKeys config.ContinentFirebaseRegions →
      resolveRegion c = "us-central1" := by
    intro c hc
    unfold resolveRegion
    rw [lookup_none_of_not_key _ _ hc]
    rfl
  refine ⟨?_, hdefault, by decide, by decide, by decide⟩
  intro c
  by_cases hc : c ∈ mapKeys config.ContinentFirebaseRegions
  · left
    obtain ⟨r, hr⟩ := lookup_some_of_key _ _ hc
    have : resolveRegion c = r := by
      unfold resolveRegion
      rw [hr]
    rw [this]
    exact mem_of_lookup_some _ _ _ hr
  · right
    exact ⟨hc, hdefault c hc⟩

/-- C5: `config.Continents` and `config.ContinentFirebaseRegions` have the same
key set, af, as, eu, na, oc, sa, so `isRecognizedContinent c` holds exactly
when `c` has an entry of its own in the region table (rather than falling back
to the default). -/
theorem continents_and_region_table_same_keys :
    (∀ c ∈ mapKeys config.Continents, c ∈ mapKeys config.ContinentFirebaseRegions) ∧
    (∀ c ∈ mapKeys config.ContinentFirebaseRegions, c ∈ mapKeys config.Continents) ∧
    (∀ c : String, c ∈ mapKeys config.Continents ↔
      c ∈ ["af", "as", "eu", "na", "oc", "sa"]) ∧
    (∀ c : String, c ∈ mapKeys config.ContinentFirebaseRegions ↔
      c ∈ ["af", "as", "eu", "na", "oc", "sa"]) ∧
    (∀ c : String, isRecognizedContinent c = true ↔
      ∃ r, config.ContinentFirebaseRegions.lookup c = some r) := by
  have hk1 : mapKeys config.Continents = ["af", "as", "eu", "na", "oc", "sa"] := by decide
  have hk2 : mapKeys config.ContinentFirebaseRegions =
      ["af", "as", "eu", "na", "oc", "sa"] := by decide
  refine ⟨?_, ?_, ?_, ?_, ?_⟩
  · rw [hk1, hk2]; exact fun _ h => h
  · rw [hk1, hk2]; exact fun _ h => h
  · rw [hk1]; exact fun _ => Iff.rfl
  · rw [hk2]; exact fun _ => Iff.rfl
  · intro c
    constructor
    · intro h
      apply lookup_some_of_key
      rw [hk2, ← hk1]
      by_contra hc
      have hnone := lookup_none_of_not_key _ _ hc
      simp [isRecognizedContinent, hnone] at h
    · rintro ⟨r, hr⟩
      have hc : c ∈ mapKeys config.Continents := by
        rw [hk1, ← hk2]
        exact List.mem_map_of_mem Prod.fst (mem_of_lookup_some _ _ _ hr)
      obtain ⟨u, hu⟩ := lookup_some_of_key _ _ hc
      simp [isRecognizedContinent, hu]

/-- C6: every region string of the configuration is a recognized region: each
value of `config.ContinentFirebaseRegions` and `config.DefaultFirebaseRegion`
occurs in `config.FirebaseRegions`, so `resolveRegion` returns a recognized
region for every input. -/
theorem regions_are_recognized :
    (∀ r ∈ mapValues config.ContinentFirebaseRegions, r ∈ config.FirebaseRegions) ∧
    config.DefaultFirebaseRegion ∈ config.FirebaseRegions ∧
    (∀ c : String, resolveRegion c ∈ config.FirebaseRegions) := by
  have hvals : ∀ r ∈ mapValues config.ContinentFirebaseRegions,
      r ∈ config.FirebaseRegions := by decide
  have hdef : config.DefaultFirebaseRegion ∈ config.FirebaseRegions := by decide
  refine ⟨hvals, hdef, ?_⟩
  intro c
  unfold resolveRegion
  cases hl : config.ContinentFirebaseRegions.lookup c with
  | none => exact hdef
  | some r =>
    exact hvals r (List.mem_map_of_mem Prod.snd (mem_of_lookup_some _ _ _ hl))

/-- C8: the gateway tunables of the reference configuration:
`config.IPFSGatewayUptimeCheckTTL` is 600 and
`config.IPFSGatewayUptimeCheckTimeout` is 1500 milliseconds, that is
1 500 000 000 nanoseconds as a `time.Duration`. -/
theorem gateway_tunables :
    config.IPFSGatewayUptimeCheckTTL = 600 ∧
    config.IPFSGatewayUptimeCheckTimeout = 1500 * timeMillisecond ∧
    config.IPFSGatewayUptimeCheckTimeout = 1500000000 := by
  refine ⟨rfl, ?_, ?_⟩ <;>
    norm_num [config.IPFSGatewayUptimeCheckTimeout, wrapInt64, timeMillisecond]

/-- C9: every key of `config.Plans` has the plan-code format
`<majorGroup>-<variant>`: a non-empty run of decimal digits, one hyphen, a
non-empty run of decimal digits, and nothing else. -/
theorem plan_codes_well_formed :
    ∀ code ∈ mapKeys config.Plans, ∃ major variant : List Char,
      code.toList = major ++ '-' :: variant ∧
      major ≠ [] ∧ variant ≠ [] ∧
      (∀ c ∈ major, c.isDigit = true) ∧ (∀ c ∈ variant, c.isDigit = true) ∧
      code.toList.count '-' = 1 := by
  have hall : ∀ code ∈ mapKeys config.Plans, isPlanCodeFormat code = true := by decide
  intro code hcode
  obtain ⟨major, variant, hsplit, hm, hv, hdm, hdv⟩ :=
    isPlanCodeFormat_sound code (hall code hcode)
  refine ⟨major, variant, hsplit, hm, hv, hdm, hdv, ?_⟩
  have hnm : List.count '-' major = 0 :=
    List.count_eq_zero.mpr fun hmem => absurd (hdm _ hmem) (by decide)
  have hnv : List.count '-' variant = 0 :=
    List.count_eq_zero.mpr fun hmem => absurd (hdv _ hmem) (by decide)
  rw [hsplit, List.count_append, List.count_cons_self, hnm, hnv]

/-- Witness for C9 at the key "8-4" (major group 8, variant 4). -/
theorem plan_codes_well_formed_witness :
    "8-4" ∈ mapKeys config.Plans ∧ ∃ major variant : List Char,
      "8-4".toList = major ++ '-' :: variant ∧
      major ≠ [] ∧ variant ≠ [] ∧
      (∀ c ∈ major, c.isDigit = true) ∧ (∀ c ∈ variant, c.isDigit = true) ∧
      "8-4".toList.count '-' = 1 :=
  ⟨by decide, plan_codes_well_formed "8-4" (by decide)⟩

/-- C7: over the catalog, `expandGiftPack` is Empty for every plan whose
`GiftPack` flag is false, and for each gift-pack plan ("13-1" to "13-4", the
only ones) it is the ordered list of triples its `AccountsPlan` value
encodes. -/
theorem expandGiftPack_catalog :
    (∀ e ∈ config.Plans, e.2.GiftPack = false → expandGiftPack e.1 = []) ∧
    (∀ e ∈ config.Plans, e.2.GiftPack = true → e.1 ∈ ["13-1", "13-2", "13-3", "13-4"]) ∧
    expandGiftPack "13-1" = [⟨"AnnualSupporter", 10, 18⟩] ∧
    expandGiftPack "13-2" = [⟨"AnnualPremium", 5, 30⟩] ∧
    expandGiftPack "13-3" = [⟨"AnnualPlatinum", 2, 42⟩] ∧
    expandGiftPack "13-4" =
      [⟨"AnnualSupporter", 10, 18⟩, ⟨"AnnualPremium", 5, 30⟩, ⟨"AnnualPlatinum", 2, 42⟩] := by
  refine ⟨by decide, by decide, by decide, by decide, by decide, by decide⟩

/-- C10: every plan name inside a gift-pack triple of the catalog (the names
are AnnualSupporter, AnnualPremium and AnnualPlatinum, and every gift-pack
value parses) is the `AccountsPlan` of at least one plan of `config.Plans`
whose `GiftPack` flag is false. -/
theorem gift_packs_bundle_catalog_plans :
    (∀ e ∈ config.Plans, e.2.GiftPack = true → parseGiftPack e.2.AccountsPlan ≠ none) ∧
    (∀ name : String, name ∈ bundledPlanNames config.Plans ↔
      name ∈ ["AnnualSupporter", "AnnualPremium", "AnnualPlatinum"]) ∧
    (∀ name ∈ bundledPlanNames config.Plans,
      ∃ e ∈ config.Plans, e.2.GiftPack = false ∧ e.2.AccountsPlan = name) := by
  have hnames : bundledPlanNames config.Plans =
      ["AnnualSupporter", "AnnualPremium", "AnnualPlatinum",
       "AnnualSupporter", "AnnualPremium", "AnnualPlatinum"] := by decide
  refine ⟨by decide, ?_, ?_⟩
  · intro name
    rw [hnames]
    simp only [List.mem_cons, List.mem_singleton, List.not_mem_nil, or_false]
    tauto
  · rw [hnames]
    decide

/-- C11: the two continent fallback constants are usable as fallbacks:
`config.DefaultContinentCode` ("eu") and `config.DefaultContinentCodeBackup`
("na") are distinct, both are keys of `config.Continents`, and both have an
entry in `config.ContinentFirebaseRegions`. -/
theorem default_continent_codes_usable :
    config.DefaultContinentCode = "eu" ∧
    config.DefaultContinentCodeBackup = "na" ∧
    config.DefaultContinentCode ≠ config.DefaultContinentCodeBackup ∧
    config.DefaultContinentCode ∈ mapKeys config.Continents ∧
    config.DefaultContinentCodeBackup ∈ mapKeys config.Continents ∧
    config.ContinentFirebaseRegions.lookup config.DefaultContinentCode = some "europe-west1" ∧
    config.ContinentFirebaseRegions.lookup config.DefaultContinentCodeBackup =
      some "us-central1" := by
  refine ⟨rfl, rfl, by decide, by decide, by decide, by decide, by decide⟩

/-! ## The allowed-ID pattern -/

/-- Characters are equal exactly when their code points are. -/
theorem char_eq_iff_toNat_eq (c d : Char) : c = d ↔ c.toNat = d.toNat := by
  constructor
  · rintro rfl
    rfl
  · intro h
    apply Char.ext
    cases hc : c.val with
    | mk bc =>
      cases hd : d.val with
      | mk bd =>
        congr
        apply BitVec.eq_of_toNat_eq
        simp only [Char.toNat, UInt32.toNat, hc, hd] at h
        exact h

/-- The class `[A-Za-z0-9_-]` holds the ASCII letters, the digits, `_` and `-`. -/
theorem inRanges_allowed (c : Char) :
    inRanges [('A', 'Z'), ('a', 'z'), ('0', '9'), ('_', '_'), ('-', '-')] c = true ↔
      (c.isAlpha = true ∨ c.isDigit = true ∨ c = '_' ∨ c = '-') := by
  have hu : c.isUpper = true ↔ 65 ≤ c.toNat ∧ c.toNat ≤ 90 := by
    simp only [Char.isUpper, Bool.and_eq_true, decide_eq_true_eq, ge_iff_le, UInt32.le_def,
      BitVec.le_def, Char.toNat, UInt32.toNat]
    rfl
  have hl : c.isLower = true ↔ 97 ≤ c.toNat ∧ c.toNat ≤ 122 := by
    simp only [Char.isLower, Bool.and_eq_true, decide_eq_true_eq, ge_iff_le, UInt32.le_def,
      BitVec.le_def, Char.toNat, UInt32.toNat]
    rfl
  have hd : c.isDigit = true ↔ 48 ≤ c.toNat ∧ c.toNat ≤ 57 := by
    simp only [Char.isDigit, Bool.and_eq_true, decide_eq_true_eq, ge_iff_le, UInt32.le_def,
      BitVec.le_def, Char.toNat, UInt32.toNat]
    rfl
  have h1 : c = '_' ↔ c.toNat = 95 := char_eq_iff_toNat_eq c '_'
  have h2 : c = '-' ↔ c.toNat = 45 := char_eq_iff_toNat_eq c '-'
  have hA : 'A'.toNat = 65 := rfl
  have hZ : 'Z'.toNat = 90 := rfl
  have ha : 'a'.toNat = 97 := rfl
  have hz : 'z'.toNat = 122 := rfl
  have h0 : '0'.toNat = 48 := rfl
  have h9 : '9'.toNat = 57 := rfl
  have hus : '_'.toNat = 95 := rfl
  have hhy : '-'.toNat = 45 := rfl
  simp only [inRanges, Char.isAlpha, List.any_cons, List.any_nil, Bool.or_false,
    Bool.or_eq_true, Bool.and_eq_true, decide_eq_true_eq, hu, hl, hd, h1, h2,
    hA, hZ, ha, hz, h0, h9, hus, hhy]
  omega

/-- Nothing is reached from no starting point. -/
theorem repeatStep_nil (step : List Char → List (List Char)) (n : Nat) :
    repeatStep step n [] = [] := by
  induction n with
  | zero => rfl
  | succ n ih => simp [repeatStep, ih]

/-- Repeating a character class reaches the end of the text exactly when the
text is a non-empty run of class characters within the repetition bound. -/
theorem repeatStep_class_reaches_end (ranges : List (Char × Char)) (n : Nat) :
    ∀ text : List Char,
      [] ∈ repeatStep (Regex.remainders (.charClass ranges)) n [text] ↔
        text ≠ [] ∧ (∀ c ∈ text, inRanges ranges c = true) ∧ text.length ≤ n := by
  induction n with
  | zero =>
    intro text
    cases text <;> simp [repeatStep]
  | succ n ih =>
    intro text
    cases text with
    | nil => simp [repeatStep, Regex.remainders, repeatStep_nil]
    | cons c rest =>
      by_cases hc : inRanges ranges c = true
      · have hstep : [c :: rest].flatMap (Regex.remainders (.charClass ranges)) = [rest] := by
          simp [Regex.remainders, hc]
        rw [repeatStep, hstep]
        simp only [List.singleton_append, List.mem_cons, ih rest]
        cases rest with
        | nil => simp [hc]
        | cons d rest' =>
          simp only [List.mem_cons, forall_eq_or_imp, hc, true_and, List.length_cons]
          constructor
          · rintro (h | h)
            · exact absurd h (by simp)
            · exact ⟨by simp, ⟨h.2.1.1, h.2.1.2⟩, by omega⟩
          · rintro ⟨_, ⟨h1, h2⟩, h3⟩
            exact Or.inr ⟨by simp, ⟨h1, h2⟩, by omega⟩
      · have hstep : [c :: rest].flatMap (Regex.remainders (.charClass ranges)) = [] := by
          simp [Regex.remainders, hc]
        rw [repeatStep, hstep, repeatStep_nil]
        simp [hc]

/-- The pattern matches at the head of a text exactly when the whole text is a
non-empty run of class characters. -/
theorem allowedCyphIDs_remainders (text : List Char) :
    config.AllowedCyphIDs.remainders text ≠ [] ↔
      text ≠ [] ∧ ∀ c ∈ text,
        inRanges [('A', 'Z'), ('a', 'z'), ('0', '9'), ('_', '_'), ('-', '-')] c = true := by
  have hend : ∀ rest : List Char, Regex.remainders .endOfText rest ≠ [] ↔ rest = [] := by
    intro rest
    cases rest <;> simp [Regex.remainders]
  have hreach := repeatStep_class_reaches_end
    [('A', 'Z'), ('a', 'z'), ('0', '9'), ('_', '_'), ('-', '-')] (text.length + 1) text
  rw [config.AllowedCyphIDs, Regex.remainders, Regex.remainders]
  constructor
  · intro h
    obtain ⟨x, hx⟩ := List.exists_mem_of_ne_nil _ h
    obtain ⟨rest, hrest, hx'⟩ := List.mem_flatMap.mp hx
    have hnil : rest = [] := (hend rest).mp (List.ne_nil_of_mem hx')
    subst hnil
    have := hreach.mp hrest
    exact ⟨this.1, this.2.1⟩
  · rintro ⟨h1, h2⟩
    have hmem := hreach.mpr ⟨h1, h2, Nat.le_succ _⟩
    apply List.ne_nil_of_mem (a := [])
    exact List.mem_flatMap.mpr ⟨[], hmem, by simp [Regex.remainders]⟩

/-- The pattern is found in a string exactly when the string is non-empty and
its last character belongs to the class. -/
theorem allowedCyphIDs_matchString (s : String) :
    config.AllowedCyphIDs.matchString s = true ↔
      s ≠ "" ∧ ∃ c, s.toList.getLast? = some c ∧
        (c.isAlpha = true ∨ c.isDigit = true ∨ c = '_' ∨ c = '-') := by
  have hsearch : config.AllowedCyphIDs.matchString s = true ↔
      ∃ text, text <:+ s.toList ∧ config.AllowedCyphIDs.remainders text ≠ [] := by
    simp only [Regex.matchString, List.any_eq_true, List.mem_tails, Bool.not_eq_true',
      List.isEmpty_eq_false]
  rw [hsearch]
  constructor
  · rintro ⟨text, ⟨pre, hpre⟩, hmatch⟩
    obtain ⟨hne, hall⟩ := (allowedCyphIDs_remainders text).mp hmatch
    refine ⟨?_, text.getLast hne, ?_, ?_⟩
    · intro hs
      rw [hs] at hpre
      simp at hpre
      exact hne hpre.2
    · rw [← hpre, List.getLast?_append_of_ne_nil _ hne, List.getLast?_eq_getLast _ hne]
    · exact (inRanges_allowed _).mp (hall _ (List.getLast_mem hne))
  · rintro ⟨_, c, hlast, hc⟩
    refine ⟨[c], ?_, ?_⟩
    · refine ⟨s.toList.dropLast, ?_⟩
      exact List.dropLast_append_getLast? c hlast
    · apply (allowedCyphIDs_remainders [c]).mpr
      refine ⟨by simp, ?_⟩
      intro d hd
      rw [List.mem_singleton] at hd
      subst hd
      exact (inRanges_allowed _).mpr hc


/-- C12: the pattern `config.AllowedCyphIDs` is anchored only at the end: a
string contains a match exactly when it is non-empty and its last character is
an ASCII letter, a digit, `_` or `-`; so "!!a" matches although it holds
characters outside the class, and a match does not show that every character
of an ID is allowed. -/
theorem allowedCyphIDs_anchored_only_at_end :
    (∀ s : String, config.AllowedCyphIDs.matchString s = true ↔
      s ≠ "" ∧ ∃ c, s.toList.getLast? = some c ∧
        (c.isAlpha = true ∨ c.isDigit = true ∨ c = '_' ∨ c = '-')) ∧
    config.AllowedCyphIDs.matchString "!!a" = true ∧
    (∃ c ∈ "!!a".toList,
      ¬(c.isAlpha = true ∨ c.isDigit = true ∨ c = '_' ∨ c = '-')) ∧
    ¬(∀ s : String, config.AllowedCyphIDs.matchString s = true →
      ∀ c ∈ s.toList, c.isAlpha = true ∨ c.isDigit = true ∨ c = '_' ∨ c = '-') := by
  have hbang : ¬('!'.isAlpha = true ∨ '!'.isDigit = true ∨ '!' = '_' ∨ '!' = '-') := by
    decide
  refine ⟨allowedCyphIDs_matchString, by decide, ⟨'!', by decide, hbang⟩, ?_⟩
  intro hall
  exact hbang (hall "!!a" (by decide) '!' (by decide))

end Cyph
